import Mathlib

/-!
Verification of the feedback-summarizer service (`src/app.py`).

The Flask endpoint `POST /summarize` is embedded as pure Lean functions.
External collaborators are parameters:

* the Gemini network call (`client.models.generate_content`) is a function
  `net : String → String` from prompt text to the provider's response text
  (`call_gemini_api` then strips it);
* the Python stdlib JSON decoder `json.loads` is a function
  `jsonLoads : String → Except String Json` returning either a decoded value
  or a decode-error message.

Everything else — grouping, extraction, chunking, prompt construction,
pydantic-style shape validation, record assembly and the endpoint's
error handling — is translated from the source.  Table cells are modelled
as `Option String` (`none` = JSON `null` / pandas `NaN`); the claims under
study only involve textual or null cells.  Side effects are made visible:
the embedding of `summarize` additionally returns the list of prompts sent
to the model, in call order.
-/

namespace FeedbackSummarizer

/-- JSON values, as produced by the stdlib decoder `json.loads`. -/
inductive Json where
  | str (s : String)
  | num (n : Int)
  | bool (b : Bool)
  | null
  | arr (elems : List Json)
  | obj (fields : List (String × Json))

/-- One entry of the hard-coded `QUESTIONS` list (fields `full`, `short`, `col`). -/
structure Question where
  full : String
  short : String
  col : String
deriving DecidableEq

/-- The hard-coded question list of `src/app.py`. -/
def QUESTIONS : List Question :=
  [⟨"Briefly explain your rating. What aspects of the program influenced your score the most?",
    "program satisfaction",
    "Briefly explain your rating. What aspects of the program influenced your score the most?"⟩,
   ⟨"OPTIONAL: Please share any additional comments or suggestions you have for improving the AiCE program.",
    "learning experience",
    "OPTIONAL: Please share any additional comments or suggestions you have for improving the AiCE program."⟩,
   ⟨"OPTIONAL: What additional support or resources would you like to see introduced to enhance your experience in the program further? [open-ended]",
    "program support",
    "OPTIONAL: What additional support or resources would you like to see introduced to enhance your experience in the program further? [open-ended]"⟩,
   ⟨"Please describe in detail what challenges you experienced",
    "payment process",
    "Please describe in detail what challenges you experienced"⟩]

/-- Pydantic model `Theme`: `theme: str`, `summary: str`, `samples: List[str]`. -/
structure Theme where
  theme : String
  summary : String
  samples : List String
deriving DecidableEq

/-- Pydantic model `SummaryResponse`: `themes: List[Theme]`, `recommendations: List[str]`. -/
structure SummaryResponse where
  themes : List Theme
  recommendations : List String
deriving DecidableEq

/-- `MAX_RESPONSES_PER_CHUNK = 20`. -/
def MAX_RESPONSES_PER_CHUNK : Nat := 20

/-- Fuel-indexed worker for `chunk_list`; the fuel is an upper bound on the
list length, so the zero-fuel/nonempty case is never reached from `chunk_list`. -/
def chunkGo (n : Nat) : Nat → List α → List (List α)
  | _, [] => []
  | 0, _ :: _ => []
  | fuel + 1, a :: as => ((a :: as).take n) :: chunkGo n fuel ((a :: as).drop n)

/-- `chunk_list(lst, n)`: successive `n`-sized slices of `lst`
(`lst[i:i+n]` for `i = 0, n, 2n, ...`).  Python's `range` with step `0`
raises, so the `n = 0` case is outside the function's domain; it is mapped
to `[]` here and every theorem about `chunk_list` assumes `0 < n`. -/
def chunk_list (lst : List α) (n : Nat) : List (List α) :=
  if n = 0 then [] else chunkGo n lst.length lst

theorem chunkGo_flatten (n : Nat) (hn : 0 < n) :
    ∀ (fuel : Nat) (lst : List α), lst.length ≤ fuel → (chunkGo n fuel lst).flatten = lst := by
  intro fuel
  induction fuel with
  | zero =>
    intro lst hlen
    cases lst with
    | nil => rfl
    | cons a as => simp at hlen
  | succ f ih =>
    intro lst hlen
    cases lst with
    | nil => rfl
    | cons a as =>
      have hdrop : ((a :: as).drop n).length ≤ f := by
        simp only [List.length_drop, List.length_cons] at *
        omega
      simp only [chunkGo, List.flatten_cons, ih _ hdrop, List.take_append_drop]

theorem chunkGo_length_le (n : Nat) :
    ∀ (fuel : Nat) (lst : List α), ∀ c ∈ chunkGo n fuel lst, c.length ≤ n := by
  intro fuel
  induction fuel with
  | zero =>
    intro lst c hc
    cases lst with
    | nil => simp [chunkGo] at hc
    | cons a as => simp [chunkGo] at hc
  | succ f ih =>
    intro lst c hc
    cases lst with
    | nil => simp [chunkGo] at hc
    | cons a as =>
      simp only [chunkGo, List.mem_cons] at hc
      rcases hc with h | h
      · subst h
        simp
      · exact ih _ c h

/-- Concatenating the chunks reproduces the input. -/
theorem chunk_list_flatten (lst : List α) (n : Nat) (hn : 0 < n) :
    (chunk_list lst n).flatten = lst := by
  unfold chunk_list
  rw [if_neg (Nat.pos_iff_ne_zero.mp hn)]
  exact chunkGo_flatten n hn lst.length lst le_rfl

/-- `generate_summary_prompt(cohort, question_full, responses)`. -/
def generate_summary_prompt (cohort question_full : String) (responses : List String) : String :=
  "\nYou are an expert qualitative analyst summarizing survey responses from cohort \x27"
    ++ cohort ++ "\x27 for the question:\n\n\"" ++ question_full
    ++ "\"\n\nIdentify 3 to 5 main themes. For each theme, provide:\n- A concise theme title\n- A summary including approximately how many respondents mentioned it\n- 3 to 4 representative sample quotes verbatim\n\nOutput **only** a JSON string matching this schema exactly (no extra text):\n\n\x7b\n  \"themes\": [\n    \x7b\n      \"theme\": \"string\",\n      \"summary\": \"string\",\n      \"samples\": [\"string\"]\n    \x7d\n  ],\n  \"recommendations\": []\n\x7d\n\nResponses (separate each by \"---\"):\n\n"
    ++ String.intercalate "\n---\n" responses ++ "\n"

/-- `generate_recommendations_prompt(cohort, all_feedback)`. -/
def generate_recommendations_prompt (cohort : String) (all_feedback : List String) : String :=
  "\nBased on the following open-ended feedback from cohort \x27" ++ cohort
    ++ "\x27, generate 3 to 4 numbered, concise, actionable recommendations to improve the AiCE program.\n\nReturn ONLY the recommendations as a JSON array of strings (e.g. [\"rec 1\", \"rec 2\", ...]) without any other commentary.\n\nFeedback (each separated by ---):\n\n"
    ++ String.intercalate "\n---\n" all_feedback ++ "\n"

/-- `call_gemini_api(prompt_text)`: one network call, then `.strip()` of the
returned text.  `net` is the external provider (prompt ↦ response text). -/
def call_gemini_api (net : String → String) (prompt_text : String) : String :=
  (net prompt_text).trim

/-- Pydantic `str` field check (a JSON string; other shapes fail validation). -/
def jsonAsStr : Json → Except String String
  | .str s => .ok s
  | _ => .error "str type expected"

/-- Pydantic `List[str]` field check. -/
def jsonAsStrList : Json → Except String (List String)
  | .arr xs => xs.mapM jsonAsStr
  | _ => .error "value is not a valid list"

/-- Field lookup in a decoded JSON object; a missing field is a validation error. -/
def getField (fields : List (String × Json)) (k : String) : Except String Json :=
  match fields.lookup k with
  | some v => .ok v
  | none => .error (k ++ ": field required")

/-- `Theme.parse_obj`: requires `theme : str`, `summary : str`,
`samples : List[str]`.  Error descriptions are abbreviated forms of
pydantic's messages (the source only interpolates them into a diagnostic
string, never branches on them). -/
def Theme.parseObj : Json → Except String Theme
  | .obj fields => do
    let t ← jsonAsStr (← getField fields "theme")
    let s ← jsonAsStr (← getField fields "summary")
    let a ← jsonAsStrList (← getField fields "samples")
    return ⟨t, s, a⟩
  | _ => .error "value is not a valid dict"

/-- Pydantic `List[Theme]` field check. -/
def parseThemeList : Json → Except String (List Theme)
  | .arr xs => xs.mapM Theme.parseObj
  | _ => .error "value is not a valid list"

/-- `SummaryResponse.parse_obj`: requires `themes : List[Theme]` and
`recommendations : List[str]`. -/
def SummaryResponse.parseObj : Json → Except String SummaryResponse
  | .obj fields => do
    let th ← parseThemeList (← getField fields "themes")
    let rs ← jsonAsStrList (← getField fields "recommendations")
    return ⟨th, rs⟩
  | _ => .error "value is not a valid dict"

/-- `json.loads(raw)` followed by `SummaryResponse.parse_obj`: the two
exception classes caught at the call site (`json.JSONDecodeError`,
`ValidationError`) are merged into one `Except` error channel, as the
source handles them identically. -/
def parseSummaryResponse (jsonLoads : String → Except String Json) (raw : String) :
    Except String SummaryResponse :=
  match jsonLoads raw with
  | .error e => .error e
  | .ok j => SummaryResponse.parseObj j

/-- A table row: one `Option String` cell per header (`none` = null/NaN). -/
abbrev Row := List (Option String)

/-- Index of a column name in the header list (first occurrence). -/
def colIndexOf : List String → String → Option Nat
  | [], _ => none
  | h :: hs, c => if h = c then some 0 else (colIndexOf hs c).map (· + 1)

/-- The value of `row` in column `col` (missing column or cell gives `none`). -/
def cellValue (headers : List String) (row : Row) (col : String) : Option String :=
  match colIndexOf headers col with
  | some i => row.getD i none
  | none => none

/-- `group[col].dropna().tolist()`: the non-null values of column `col`,
in row order.  Note pandas `dropna` keeps empty strings. -/
def dropnaColumn (headers : List String) (rows : List Row) (col : String) : List String :=
  rows.filterMap (fun r => cellValue headers r col)

/-- The `"Cohort"` cell of a row. -/
def cohortValue (headers : List String) (r : Row) : Option String :=
  cellValue headers r "Cohort"

/-- Lexicographic less-or-equal on character lists by code point — the
order Python (hence pandas `groupby`) uses on `str` keys, in executable
form. -/
def listLexLe : List Char → List Char → Bool
  | [], _ => true
  | _ :: _, [] => false
  | a :: as, b :: bs =>
    if a.toNat < b.toNat then true
    else if b.toNat < a.toNat then false
    else listLexLe as bs

/-- Executable string less-or-equal by code points. -/
def strLeB (a b : String) : Bool :=
  listLexLe a.data b.data

/-- The sort relation for cohort keys, as a proposition. -/
def strLeR (a b : String) : Prop :=
  strLeB a b = true

instance : DecidableRel strLeR :=
  fun a b => inferInstanceAs (Decidable (strLeB a b = true))

/-- The group keys of `df.groupby("Cohort")`: distinct non-null cohort
values, sorted ascending (pandas sorts keys by default and drops null keys). -/
def cohortKeys (headers : List String) (rows : List Row) : List String :=
  List.insertionSort strLeR ((rows.filterMap (cohortValue headers)).dedup)

/-- The member rows of the group keyed `k`, in original order. -/
def groupFor (headers : List String) (rows : List Row) (k : String) : List Row :=
  rows.filter (fun r => cohortValue headers r = some k)

/-- The groups of `df.groupby("Cohort")` in iteration order. -/
def cohortGroups (headers : List String) (rows : List Row) : List (String × List Row) :=
  (cohortKeys headers rows).map (fun k => (k, groupFor headers rows k))

/-- All rows covered by the groups, concatenated in group order. -/
def groupedRows (headers : List String) (rows : List Row) : List Row :=
  ((cohortGroups headers rows).map (fun g => g.2)).flatten

/-- A successful theme row appended to `summary_output`. -/
def themeRow (cohort : String) (q : Question) (t : Theme) : List String :=
  [cohort, q.full, q.short, t.theme, t.summary, String.intercalate "\n" t.samples]

/-- The error row appended to `summary_output` on a chunk parse failure:
`[cohort, q.full, q.short, "Parse Error", message, raw_text[:200]]`. -/
def parseErrorRow (cohort : String) (q : Question) (e raw : String) : List String :=
  [cohort, q.full, q.short, "Parse Error", "Failed to parse JSON output: " ++ e, raw.take 200]

/-- The stripped model text for one chunk of a (cohort, question) pair. -/
def chunkRaw (net : String → String) (cohort : String) (q : Question) (c : List String) : String :=
  call_gemini_api net (generate_summary_prompt cohort q.full c)

/-- The parse outcome for one chunk of a (cohort, question) pair. -/
def chunkParse (net : String → String) (jl : String → Except String Json)
    (cohort : String) (q : Question) (c : List String) : Except String SummaryResponse :=
  parseSummaryResponse jl (chunkRaw net cohort q c)

/-- The themes a chunk contributes when it parses (and `[]` when it fails). -/
def chunkThemes (net : String → String) (jl : String → Except String Json)
    (cohort : String) (q : Question) (c : List String) : List Theme :=
  match chunkParse net jl cohort q c with
  | .ok sr => sr.themes
  | .error _ => []

/-- The `for chunk in chunks` loop: accumulates themes across chunks; on the
first parse failure appends one error row and `break`s.  Returns
(error rows, `themes_accum`, prompts sent in order). -/
def chunkLoop (net : String → String) (jl : String → Except String Json)
    (cohort : String) (q : Question) :
    List (List String) → List Theme → List (List String) × List Theme × List String
  | [], acc => ([], acc, [])
  | c :: cs, acc =>
    match chunkParse net jl cohort q c with
    | .ok sr =>
      let r := chunkLoop net jl cohort q cs (acc ++ sr.themes)
      (r.1, r.2.1, generate_summary_prompt cohort q.full c :: r.2.2)
    | .error e =>
      ([parseErrorRow cohort q e (chunkRaw net cohort q c)], acc,
       [generate_summary_prompt cohort q.full c])

/-- The body of `for q in QUESTIONS` for one question of one cohort: skip on
absent column or empty batch, else chunk, loop, and append error rows
followed by the first three accumulated themes.  Returns
(summary rows, responses contributed to `all_text_for_recs`, prompts sent). -/
def processQuestion (net : String → String) (jl : String → Except String Json)
    (headers : List String) (cohort : String) (group : List Row) (q : Question) :
    List (List String) × List String × List String :=
  if q.col ∈ headers then
    let responses := dropnaColumn headers group q.col
    if responses.isEmpty then ([], [], [])
    else
      let r := chunkLoop net jl cohort q (chunk_list responses MAX_RESPONSES_PER_CHUNK) []
      (r.1 ++ ((r.2.1).take 3).map (themeRow cohort q), responses, r.2.2)
  else ([], [], [])

/-- The recommendation step for one cohort: one model call over the cohort's
accumulated feedback (skipped when there is none), `json.loads`, an
`isinstance(recs, list)` check, one record per element on success, a single
sentinel record on any failure. -/
def recsFor (net : String → String) (jl : String → Except String Json)
    (cohort : String) (allText : List String) : List (String × Json) × List String :=
  if allText.isEmpty then ([], [])
  else
    let raw := call_gemini_api net (generate_recommendations_prompt cohort allText)
    (match jl raw with
     | .ok (.arr xs) => xs.map (fun x => (cohort, x))
     | .ok _ =>
       [(cohort, Json.str "Failed to parse recommendations: Recommendations response is not a list")]
     | .error e => [(cohort, Json.str ("Failed to parse recommendations: " ++ e))],
     [generate_recommendations_prompt cohort allText])

/-- One iteration of `for cohort, group in cohorts`: all four questions in
order, then the cohort-wide recommendation call.  Returns
(summary rows, recommendation rows, prompts sent). -/
def processCohort (net : String → String) (jl : String → Except String Json)
    (headers : List String) (rows : List Row) (cohort : String) :
    List (List String) × List (String × Json) × List String :=
  let group := groupFor headers rows cohort
  let perQ := QUESTIONS.map (processQuestion net jl headers cohort group)
  let allText := (perQ.map (fun x => x.2.1)).flatten
  let recs := recsFor net jl cohort allText
  ((perQ.map (fun x => x.1)).flatten, recs.1,
   (perQ.map (fun x => x.2.2)).flatten ++ recs.2)

/-- The decoded request body: either key may be absent. -/
structure Payload where
  headers : Option (List String)
  rows : Option (List Row)

/-- The endpoint's observable response: HTTP 200 with the two tables,
HTTP 400 (`clientError`) or HTTP 500 (`serverError`) with an error string. -/
inductive HttpResponse where
  | ok (summary : List (List String)) (recommendations : List (String × Json))
  | clientError (msg : String)
  | serverError (msg : String)

/-- The `/summarize` handler.  `data = none` models a missing/empty body.
A header list without `"Cohort"` makes `df.groupby("Cohort")` raise
`KeyError('Cohort')`, which the handler's catch-all turns into HTTP 500
with message `str(e) = "'Cohort'"`.  The second component is the list of
prompts sent to the model, in call order. -/
def summarize (net : String → String) (jl : String → Except String Json)
    (data : Option Payload) : HttpResponse × List String :=
  match data with
  | none => (.clientError "Invalid input data format", [])
  | some d =>
    match d.rows, d.headers with
    | some rows, some headers =>
      if "Cohort" ∈ headers then
        let per := (cohortKeys headers rows).map (processCohort net jl headers rows)
        (.ok ((per.map (fun x => x.1)).flatten) ((per.map (fun x => x.2.1)).flatten),
         (per.map (fun x => x.2.2)).flatten)
      else (.serverError "\x27Cohort\x27", [])
    | _, _ => (.clientError "Invalid input data format", [])

/-- Modelled from the spec: the observable outcome of the Model Invoker's
bounded retry — the returned text, the number of invocations made, and the
backoff delays slept between attempts, in order. -/
structure RetryResult where
  text : String
  invocations : Nat
  delays : List Nat
deriving DecidableEq

/-- Modelled from the spec: the retry loop of the Model Invoker.
`src/app.py`'s `call_gemini_api` performs a single attempt with no retry;
the retry wrapper belongs to other revisions of this repository that are
not under `src/`.  Per the spec: on a rate-limit-class failure retry up to
the attempt bound with a delay of `2 ^ attempt + 3` seconds after failed
attempt number `attempt`, and on exhaustion return the sentinel text
`"quota exhausted"` instead of raising.  `stub attempt` is `some text` when
the provider succeeds on that attempt and `none` when it raises a
rate-limit-class error; attempts are numbered from 1 and `remaining` is the
number of attempts still allowed. -/
def retryGo (stub : Nat → Option String) : Nat → Nat → RetryResult
  | _, 0 => ⟨"quota exhausted", 0, []⟩
  | attempt, remaining + 1 =>
    match stub attempt with
    | some t => ⟨t, attempt, []⟩
    | none =>
      if remaining = 0 then ⟨"quota exhausted", attempt, []⟩
      else
        let r := retryGo stub (attempt + 1) remaining
        ⟨r.text, r.invocations, (2 ^ attempt + 3) :: r.delays⟩

/-- Modelled from the spec: the Model Invoker with its bound of at most
3 attempts. -/
def modelInvokerRetry (stub : Nat → Option String) : RetryResult :=
  retryGo stub 1 3

theorem filter_disjoint_append_perm {α : Type} (p q : α → Bool)
    (hdisj : ∀ a, ¬(p a = true ∧ q a = true)) :
    ∀ l : List α, (l.filter p ++ l.filter q).Perm (l.filter (fun a => p a || q a)) := by
  intro l
  induction l with
  | nil => simp
  | cons a l ih =>
    cases hp : p a with
    | true =>
      have hq : q a = false := by
        cases hq : q a with
        | false => rfl
        | true => exact absurd ⟨hp, hq⟩ (hdisj a)
      simp only [List.filter_cons, hp, hq, Bool.true_or, Bool.false_eq_true, if_false,
        if_true, List.cons_append]
      exact ih.cons a
    | false =>
      cases hq : q a with
      | true =>
        simp only [List.filter_cons, hp, hq, Bool.false_or, Bool.false_eq_true, if_false,
          if_true]
        exact List.perm_middle.trans (ih.cons a)
      | false =>
        simp only [List.filter_cons, hp, hq, Bool.false_or, Bool.false_eq_true, if_false]
        exact ih

theorem flatten_groupFor_perm (headers : List String) (rows : List Row) :
    ∀ ks : List String, ks.Nodup →
      ((ks.map (fun k => groupFor headers rows k)).flatten).Perm
        (rows.filter (fun r => decide (cohortValue headers r ∈ ks.map some))) := by
  intro ks
  induction ks with
  | nil => simp
  | cons k ks ih =>
    intro hnd
    rw [List.nodup_cons] at hnd
    have step := ih hnd.2
    have hdisj : ∀ r : Row, ¬(decide (cohortValue headers r = some k) = true ∧
        decide (cohortValue headers r ∈ ks.map some) = true) := by
      intro r ⟨h1, h2⟩
      rw [decide_eq_true_iff] at h1 h2
      rw [h1] at h2
      obtain ⟨k', hk', he⟩ := List.mem_map.mp h2
      exact hnd.1 (Option.some_inj.mp he ▸ hk')
    have hcongr : rows.filter
          (fun r => decide (cohortValue headers r = some k)
            || decide (cohortValue headers r ∈ ks.map some)) =
        rows.filter (fun r => decide (cohortValue headers r ∈ (k :: ks).map some)) := by
      apply List.filter_congr
      intro r _
      simp [List.mem_cons, decide_eq_decide]
    have h1 : ((k :: ks).map (fun k => groupFor headers rows k)).flatten
        = groupFor headers rows k ++ (ks.map (fun k => groupFor headers rows k)).flatten := by
      simp
    rw [h1, ← hcongr]
    unfold groupFor
    exact (List.Perm.append_left _ step).trans (filter_disjoint_append_perm _ _ hdisj rows)

theorem mem_cohortKeys_iff (headers : List String) (rows : List Row) (k : String) :
    k ∈ cohortKeys headers rows ↔ ∃ r ∈ rows, cohortValue headers r = some k := by
  unfold cohortKeys
  rw [(List.perm_insertionSort _ _).mem_iff, List.mem_dedup, List.mem_filterMap]

theorem cohortKeys_nodup (headers : List String) (rows : List Row) :
    (cohortKeys headers rows).Nodup := by
  unfold cohortKeys
  exact ((List.perm_insertionSort _ _).nodup_iff).mpr (List.nodup_dedup _)

theorem listLexLe_total : ∀ as bs : List Char, listLexLe as bs = true ∨ listLexLe bs as = true
  | [], [] => Or.inl rfl
  | [], _ :: _ => Or.inl rfl
  | _ :: _, [] => Or.inr rfl
  | a :: as, b :: bs => by
    rcases Nat.lt_trichotomy a.toNat b.toNat with h | h | h
    · left
      simp [listLexLe, h]
    · rcases listLexLe_total as bs with ih | ih
      · left
        simp [listLexLe, h, Nat.lt_irrefl, ih]
      · right
        simp [listLexLe, h, Nat.lt_irrefl, ih]
    · right
      simp [listLexLe, h]

theorem listLexLe_trans : ∀ as bs cs : List Char, listLexLe as bs = true →
    listLexLe bs cs = true → listLexLe as cs = true
  | [], _, _, _, _ => rfl
  | _ :: _, [], _, h1, _ => by simp [listLexLe] at h1
  | _ :: _, _ :: _, [], _, h2 => by simp [listLexLe] at h2
  | a :: as, b :: bs, c :: cs, h1, h2 => by
    simp only [listLexLe] at h1 h2 ⊢
    by_cases hab : a.toNat < b.toNat
    · by_cases hbc : b.toNat < c.toNat
      · simp [show a.toNat < c.toNat by omega]
      · rw [if_neg hbc] at h2
        by_cases hcb : c.toNat < b.toNat
        · rw [if_pos hcb] at h2
          exact absurd h2 (by simp)
        · simp [show a.toNat < c.toNat by omega]
    · rw [if_neg hab] at h1
      by_cases hba : b.toNat < a.toNat
      · rw [if_pos hba] at h1
        exact absurd h1 (by simp)
      · rw [if_neg hba] at h1
        by_cases hbc : b.toNat < c.toNat
        · simp [show a.toNat < c.toNat by omega]
        · rw [if_neg hbc] at h2
          by_cases hcb : c.toNat < b.toNat
          · rw [if_pos hcb] at h2
            exact absurd h2 (by simp)
          · rw [if_neg hcb] at h2
            have hac : ¬ a.toNat < c.toNat := by omega
            have hca : ¬ c.toNat < a.toNat := by omega
            rw [if_neg hac, if_neg hca]
            exact listLexLe_trans as bs cs h1 h2

instance : IsTotal String strLeR :=
  ⟨fun a b => listLexLe_total a.data b.data⟩

instance : IsTrans String strLeR :=
  ⟨fun a b c => listLexLe_trans a.data b.data c.data⟩

theorem listLexLe_lex : ∀ as bs : List Char, listLexLe as bs = true →
    List.Lex (· < ·) as bs ∨ as = bs
  | [], [], _ => Or.inr rfl
  | [], _ :: _, _ => Or.inl List.Lex.nil
  | _ :: _, [], h => by simp [listLexLe] at h
  | a :: as, b :: bs, h => by
    simp only [listLexLe] at h
    by_cases hab : a.toNat < b.toNat
    · exact Or.inl (List.Lex.rel (show a < b from hab))
    · rw [if_neg hab] at h
      by_cases hba : b.toNat < a.toNat
      · rw [if_pos hba] at h
        exact absurd h (by simp)
      · rw [if_neg hba] at h
        have hnat : a.toNat = b.toNat := by omega
        have hEq : a = b :=
          Char.le_antisymm (show a ≤ b from Nat.le_of_eq hnat)
            (show b ≤ a from Nat.le_of_eq hnat.symm)
        subst hEq
        rcases listLexLe_lex as bs h with hl | hEq2
        · exact Or.inl (List.Lex.cons hl)
        · exact Or.inr (by rw [hEq2])

theorem strLeR_le (a b : String) (h : strLeR a b) : a ≤ b := by
  rw [String.le_iff_toList_le]
  rcases listLexLe_lex a.data b.data h with hl | hEq
  · exact le_of_lt (show a.toList < b.toList from hl)
  · exact le_of_eq (show a.toList = b.toList from hEq)

theorem chunkLoop_first_error (net : String → String) (jl : String → Except String Json)
    (cohort : String) (q : Question) (c : List String) (e : String)
    (hc : chunkParse net jl cohort q c = .error e) :
    ∀ (pre : List (List String)),
      (∀ c' ∈ pre, ∃ sr, chunkParse net jl cohort q c' = .ok sr) →
      ∀ (post : List (List String)) (acc : List Theme),
        chunkLoop net jl cohort q (pre ++ c :: post) acc =
          ([parseErrorRow cohort q e (chunkRaw net cohort q c)],
           acc ++ (pre.map (chunkThemes net jl cohort q)).flatten,
           pre.map (generate_summary_prompt cohort q.full)
             ++ [generate_summary_prompt cohort q.full c]) := by
  intro pre
  induction pre with
  | nil =>
    intro _ post acc
    simp [chunkLoop, hc]
  | cons p ps ih =>
    intro hpre post acc
    obtain ⟨sr, hsr⟩ := hpre p (by simp)
    have hth : chunkThemes net jl cohort q p = sr.themes := by
      simp [chunkThemes, hsr]
    have hrest := ih (fun c' hc' => hpre c' (by simp [hc'])) post (acc ++ sr.themes)
    simp only [List.cons_append, chunkLoop, List.append_eq, hsr, hrest, hth, List.map_cons,
      List.flatten_cons, List.append_assoc]

theorem chunkLoop_all_ok (net : String → String) (jl : String → Except String Json)
    (cohort : String) (q : Question) :
    ∀ (chunks : List (List String)),
      (∀ c ∈ chunks, ∃ sr, chunkParse net jl cohort q c = .ok sr) →
      ∀ (acc : List Theme),
        chunkLoop net jl cohort q chunks acc =
          ([], acc ++ (chunks.map (chunkThemes net jl cohort q)).flatten,
           chunks.map (generate_summary_prompt cohort q.full)) := by
  intro chunks
  induction chunks with
  | nil => intro _ acc; simp [chunkLoop]
  | cons c cs ih =>
    intro hok acc
    obtain ⟨sr, hsr⟩ := hok c (by simp)
    have hth : chunkThemes net jl cohort q c = sr.themes := by
      simp [chunkThemes, hsr]
    have hrest := ih (fun c' hc' => hok c' (by simp [hc'])) (acc ++ sr.themes)
    simp only [chunkLoop, List.append_eq, hsr, hrest, hth, List.map_cons, List.flatten_cons,
      List.append_assoc]

/-- Test oracle returning a fixed provider text. -/
def netFixed : String → String := fun _ => "model output"

/-- Test decoder that always fails to decode. -/
def jlFail : String → Except String Json := fun _ =>
  .error "Expecting value: line 1 column 1 (char 0)"

/-- Test question whose column is `"Qcol"`. -/
def qTest : Question := ⟨"Question full text", "label", "Qcol"⟩

/-- Test decoder returning a well-formed summary response with four themes. -/
def jlFour : String → Except String Json := fun _ => .ok (Json.obj
  [("themes", Json.arr
     [Json.obj [("theme", Json.str "T1"), ("summary", Json.str "S1"),
                ("samples", Json.arr [Json.str "a1", Json.str "b1"])],
      Json.obj [("theme", Json.str "T2"), ("summary", Json.str "S2"),
                ("samples", Json.arr [Json.str "a2"])],
      Json.obj [("theme", Json.str "T3"), ("summary", Json.str "S3"),
                ("samples", Json.arr [])],
      Json.obj [("theme", Json.str "T4"), ("summary", Json.str "S4"),
                ("samples", Json.arr [Json.str "a4"])]]),
   ("recommendations", Json.arr [])])

/-- C1: under the structured-JSON strategy, when the raw model text for a
chunk fails JSON decoding or shape validation, exactly one Parse-Error
record is produced for that (cohort, question) pair — carrying the cohort,
the question, the literal label `"Parse Error"`, a description of the
failure and the first 200 characters of the raw text — the remaining chunks
of that pair are never processed (replacing them leaves the loop's result
unchanged), and the rest of the request continues: the endpoint still
answers with an HTTP 200 payload. -/
theorem parse_error_single_record_and_halt
    (net : String → String) (jl : String → Except String Json)
    (cohort : String) (q : Question) (pre : List (List String)) (c : List String)
    (post post' : List (List String)) (e : String)
    (hpre : ∀ c' ∈ pre, ∃ sr, chunkParse net jl cohort q c' = .ok sr)
    (hc : chunkParse net jl cohort q c = .error e) :
    (chunkLoop net jl cohort q (pre ++ c :: post) []).1 =
        [[cohort, q.full, q.short, "Parse Error",
          "Failed to parse JSON output: " ++ e, (chunkRaw net cohort q c).take 200]] ∧
    chunkLoop net jl cohort q (pre ++ c :: post) [] =
        chunkLoop net jl cohort q (pre ++ c :: post') [] ∧
    (∀ headers rows, "Cohort" ∈ headers →
        ∃ s recs, (summarize net jl (some ⟨some headers, some rows⟩)).1 = .ok s recs) := by
  have h1 := chunkLoop_first_error net jl cohort q c e hc pre hpre post []
  have h2 := chunkLoop_first_error net jl cohort q c e hc pre hpre post' []
  refine ⟨by rw [h1]; rfl, h1.trans h2.symm, ?_⟩
  intro headers rows hmem
  simp only [summarize, if_pos hmem]
  exact ⟨_, _, rfl⟩

/-- C1 witness: a decoder failure on the single chunk `["resp"]` with one
further chunk pending. -/
theorem parse_error_single_record_and_halt_witness :
    (chunkLoop netFixed jlFail "A" qTest ([] ++ ["resp"] :: [["later"]]) []).1 =
      [["A", qTest.full, qTest.short, "Parse Error",
        "Failed to parse JSON output: Expecting value: line 1 column 1 (char 0)",
        (chunkRaw netFixed "A" qTest ["resp"]).take 200]] ∧
    chunkLoop netFixed jlFail "A" qTest ([] ++ ["resp"] :: [["later"]]) [] =
      chunkLoop netFixed jlFail "A" qTest ([] ++ ["resp"] :: []) [] := by
  have h := parse_error_single_record_and_halt netFixed jlFail "A" qTest [] ["resp"]
    [["later"]] [] "Expecting value: line 1 column 1 (char 0)" (by simp) rfl
  exact ⟨h.1, h.2.1⟩

/-- C2: when every chunk of a (cohort, question) pair validates, the pair
contributes one `themeRow` per parsed theme — title, summary and samples
copied verbatim by `themeRow` — capped to the first 3 themes in
chunk-accumulation order, hence never more than 3 rows. -/
theorem success_caps_to_three_themes
    (net : String → String) (jl : String → Except String Json)
    (headers : List String) (cohort : String) (group : List Row) (q : Question)
    (hcol : q.col ∈ headers)
    (hne : (dropnaColumn headers group q.col).isEmpty = false)
    (hok : ∀ c ∈ chunk_list (dropnaColumn headers group q.col) MAX_RESPONSES_PER_CHUNK,
        ∃ sr, chunkParse net jl cohort q c = .ok sr) :
    (processQuestion net jl headers cohort group q).1 =
      ((((chunk_list (dropnaColumn headers group q.col) MAX_RESPONSES_PER_CHUNK).map
          (chunkThemes net jl cohort q)).flatten).take 3).map (themeRow cohort q) ∧
    (processQuestion net jl headers cohort group q).1.length ≤ 3 := by
  have hloop := chunkLoop_all_ok net jl cohort q _ hok []
  constructor
  · unfold processQuestion
    rw [if_pos hcol, if_neg (by simp [hne])]
    simp [hloop]
  · unfold processQuestion
    rw [if_pos hcol, if_neg (by simp [hne])]
    simp only [hloop, List.nil_append, List.length_map, List.length_take]
    exact Nat.min_le_left _ _

/-- C2 witness: four parsed themes yield exactly the first three rows. -/
theorem success_caps_to_three_themes_witness :
    (processQuestion netFixed jlFour ["Cohort", "Qcol"] "A" [[some "A", some "resp"]] qTest).1.length ≤ 3 ∧
    (processQuestion netFixed jlFour ["Cohort", "Qcol"] "A" [[some "A", some "resp"]] qTest).1 =
      [["A", "Question full text", "label", "T1", "S1", "a1\nb1"],
       ["A", "Question full text", "label", "T2", "S2", "a2"],
       ["A", "Question full text", "label", "T3", "S3", ""]] := by
  have h := success_caps_to_three_themes netFixed jlFour ["Cohort", "Qcol"] "A"
    [[some "A", some "resp"]] qTest (by decide) rfl (fun c _ => ⟨_, rfl⟩)
  exact ⟨h.2, by rfl⟩

/-- C4: for every finite sequence `S` and positive `n`, concatenating
`chunk_list`'s chunks reproduces `S`, no chunk exceeds length `n`, and the
empty sequence yields zero chunks (not one empty chunk); `chunk_list` is a
plain function of its two arguments, hence pure and restartable. -/
theorem chunk_list_spec {α : Type} (S : List α) (n : Nat) (hn : 0 < n) :
    (chunk_list S n).flatten = S ∧
    (∀ c ∈ chunk_list S n, c.length ≤ n) ∧
    chunk_list ([] : List α) n = [] := by
  refine ⟨chunk_list_flatten S n hn, ?_, ?_⟩
  · intro c hc
    unfold chunk_list at hc
    rw [if_neg (Nat.pos_iff_ne_zero.mp hn)] at hc
    exact chunkGo_length_le n S.length S c hc
  · unfold chunk_list
    split <;> rfl

/-- C3 counterexample: with a single row whose cohort cell is null, pandas
`groupby` drops the row from every group, so the union of the groups' rows
(which is empty) is not the original row list taken exactly once each. -/
theorem cohort_partition_counterexample :
    ¬ (groupedRows ["Cohort", "Q1"] [[none, some "x"]]).Perm [[none, some "x"]] := by
  intro h
  have h0 : groupedRows ["Cohort", "Q1"] [[none, some "x"]] = [] := rfl
  rw [h0] at h
  have hlen := h.length_eq
  simp at hlen

/-- C3 amended: grouping is a partition of the rows whose cohort cell is
non-null: those rows are covered exactly once each (permutation), and each
belongs to exactly one group; rows with a null cohort cell are dropped from
every group by `groupby`. -/
theorem cohort_partition_nonnull (headers : List String) (rows : List Row) :
    (groupedRows headers rows).Perm
      (rows.filter (fun r => (cohortValue headers r).isSome)) ∧
    ∀ r ∈ rows, (cohortValue headers r).isSome →
      ∃! k, k ∈ cohortKeys headers rows ∧ r ∈ groupFor headers rows k := by
  constructor
  · have hmm : groupedRows headers rows =
        ((cohortKeys headers rows).map (fun k => groupFor headers rows k)).flatten := by
      simp [groupedRows, cohortGroups, List.map_map, Function.comp_def]
    have hperm := flatten_groupFor_perm headers rows (cohortKeys headers rows)
      (cohortKeys_nodup headers rows)
    have hfc : rows.filter
          (fun r => decide (cohortValue headers r ∈ (cohortKeys headers rows).map some)) =
        rows.filter (fun r => (cohortValue headers r).isSome) := by
      apply List.filter_congr
      intro r hr
      rcases ho : cohortValue headers r with _ | v
      · simp
      · have hv : v ∈ cohortKeys headers rows :=
          (mem_cohortKeys_iff headers rows v).mpr ⟨r, hr, ho⟩
        simp [List.mem_map]
        exact hv
    rw [hmm, ← hfc]
    exact hperm
  · intro r hr hs
    rcases ho : cohortValue headers r with _ | v
    · rw [ho] at hs
      simp at hs
    · refine ⟨v, ⟨(mem_cohortKeys_iff headers rows v).mpr ⟨r, hr, ho⟩, ?_⟩, ?_⟩
      · unfold groupFor
        rw [List.mem_filter]
        exact ⟨hr, by simp [ho]⟩
      · rintro k' ⟨hk', hrk'⟩
        unfold groupFor at hrk'
        rw [List.mem_filter] at hrk'
        have hval := hrk'.2
        rw [decide_eq_true_iff, ho] at hval
        exact (Option.some_inj.mp hval).symm

/-- C3 witness: a three-row table with cohorts B, A, B. -/
theorem cohort_partition_nonnull_witness :
    (groupedRows ["Cohort"] [[some "B"], [some "A"], [some "B"]]).Perm
      (List.filter (fun r => (cohortValue ["Cohort"] r).isSome)
        [[some "B"], [some "A"], [some "B"]]) ∧
    ∃! k, k ∈ cohortKeys ["Cohort"] [[some "B"], [some "A"], [some "B"]] ∧
      [some "A"] ∈ groupFor ["Cohort"] [[some "B"], [some "A"], [some "B"]] k := by
  have h := cohort_partition_nonnull ["Cohort"] [[some "B"], [some "A"], [some "B"]]
  exact ⟨h.1, h.2 [some "A"] (by decide) rfl⟩

/-- C5 (modelled from the spec — `src/app.py`'s `call_gemini_api` makes a
single attempt with no retry; the retry wrapper belongs to revisions of the
repository outside `src/`): the Model Invoker performs at most 3 attempts,
every backoff delay equals `2 ^ attempt + 3` seconds for some failed attempt
number, a stub failing twice then succeeding sees exactly 3 invocations with
the success value returned, and an always-failing stub sees exactly 3
invocations and the sentinel text `"quota exhausted"` instead of an
exception. -/
theorem model_invoker_retry_spec :
    (∀ stub : Nat → Option String,
      (modelInvokerRetry stub).invocations ≤ 3 ∧
      (∀ d ∈ (modelInvokerRetry stub).delays, ∃ k, 1 ≤ k ∧ k ≤ 2 ∧ d = 2 ^ k + 3)) ∧
    modelInvokerRetry (fun k => if k ≤ 2 then none else some "model text") =
      ⟨"model text", 3, [2 ^ 1 + 3, 2 ^ 2 + 3]⟩ ∧
    modelInvokerRetry (fun _ => none) = ⟨"quota exhausted", 3, [2 ^ 1 + 3, 2 ^ 2 + 3]⟩ := by
  refine ⟨?_, rfl, rfl⟩
  intro stub
  rcases h1 : stub 1 with _ | t1
  · rcases h2 : stub 2 with _ | t2
    · rcases h3 : stub 3 with _ | t3
      · have e : modelInvokerRetry stub = ⟨"quota exhausted", 3, [2 ^ 1 + 3, 2 ^ 2 + 3]⟩ := by
          unfold modelInvokerRetry
          simp [retryGo, h1, h2, h3]
        rw [e]
        refine ⟨by decide, ?_⟩
        intro d hd
        rcases List.mem_cons.mp hd with rfl | hd'
        · exact ⟨1, by omega, by omega, rfl⟩
        · rcases List.mem_cons.mp hd' with rfl | hd''
          · exact ⟨2, by omega, by omega, rfl⟩
          · simp at hd''
      · have e : modelInvokerRetry stub = ⟨t3, 3, [2 ^ 1 + 3, 2 ^ 2 + 3]⟩ := by
          unfold modelInvokerRetry
          simp [retryGo, h1, h2, h3]
        rw [e]
        refine ⟨by simp, ?_⟩
        intro d hd
        rcases List.mem_cons.mp hd with rfl | hd'
        · exact ⟨1, by omega, by omega, rfl⟩
        · rcases List.mem_cons.mp hd' with rfl | hd''
          · exact ⟨2, by omega, by omega, rfl⟩
          · simp at hd''
    · have e : modelInvokerRetry stub = ⟨t2, 2, [2 ^ 1 + 3]⟩ := by
        unfold modelInvokerRetry
        simp [retryGo, h1, h2]
      rw [e]
      refine ⟨by simp, ?_⟩
      intro d hd
      rcases List.mem_cons.mp hd with rfl | hd'
      · exact ⟨1, by omega, by omega, rfl⟩
      · simp at hd'
  · have e : modelInvokerRetry stub = ⟨t1, 1, []⟩ := by
      unfold modelInvokerRetry
      simp [retryGo, h1]
    rw [e]
    refine ⟨by simp, ?_⟩
    intro d hd
    simp at hd

/-- C5 witness: the always-failing stub. -/
theorem model_invoker_retry_spec_witness :
    (modelInvokerRetry (fun _ => none)).invocations ≤ 3 ∧
    modelInvokerRetry (fun _ => none) = ⟨"quota exhausted", 3, [5, 7]⟩ := by
  have h := model_invoker_retry_spec
  exact ⟨(h.1 (fun _ => none)).1, by rw [h.2.2]; rfl⟩

/-- C6 counterexample: pandas `dropna` keeps empty strings, so a row with an
empty-string cell in the question column is NOT excluded from the batch. -/
theorem empty_string_included_counterexample :
    dropnaColumn ["Cohort", "Qcol"] [[some "A", some ""], [some "A", some "good"]] "Qcol" =
      ["", "good"] ∧
    "" ∈ dropnaColumn ["Cohort", "Qcol"] [[some "A", some ""], [some "A", some "good"]] "Qcol" :=
  ⟨rfl, by decide⟩

/-- C6 amended: the extracted batch is exactly the non-null values of the
question column in original row order — empty strings included, since
`dropna` removes only null/missing cells; an absent column or an empty batch
skips the pair's downstream stages rather than erroring; and a question's
processing depends only on that column's cells, so a row that is null in one
question column still participates in the cohort's other questions. -/
theorem response_extraction_behavior
    (net : String → String) (jl : String → Except String Json)
    (headers : List String) (cohort : String) (group group' : List Row) (q : Question) :
    dropnaColumn headers group q.col =
      (group.map (fun r => cellValue headers r q.col)).reduceOption ∧
    (q.col ∉ headers → processQuestion net jl headers cohort group q = ([], [], [])) ∧
    (dropnaColumn headers group q.col = [] →
      processQuestion net jl headers cohort group q = ([], [], [])) ∧
    (group.map (fun r => cellValue headers r q.col) =
        group'.map (fun r => cellValue headers r q.col) →
      processQuestion net jl headers cohort group q =
        processQuestion net jl headers cohort group' q) := by
  have hred : ∀ g : List Row, dropnaColumn headers g q.col =
      (g.map (fun r => cellValue headers r q.col)).reduceOption := by
    intro g
    simp [dropnaColumn, List.reduceOption, List.filterMap_map, Function.comp]
  refine ⟨hred group, ?_, ?_, ?_⟩
  · intro h
    unfold processQuestion
    rw [if_neg h]
  · intro h
    simp [processQuestion, h]
  · intro hm
    have hdd : dropnaColumn headers group q.col = dropnaColumn headers group' q.col := by
      rw [hred group, hred group', hm]
    simp only [processQuestion, hdd]

/-- C6 witness: a null cell is dropped from the batch, and an absent column
skips the pair. -/
theorem response_extraction_behavior_witness :
    dropnaColumn ["Cohort", "Qcol"] [[some "A", none], [some "A", some "good"]] "Qcol" =
      ([[some "A", none], [some "A", some "good"]].map
        (fun r => cellValue ["Cohort", "Qcol"] r "Qcol")).reduceOption ∧
    processQuestion netFixed jlFail ["Cohort", "Qcol"] "A"
      [[some "A", none], [some "A", some "good"]] ⟨"Qf", "Qs", "Absent"⟩ = ([], [], []) := by
  have h1 := response_extraction_behavior netFixed jlFail ["Cohort", "Qcol"] "A"
    [[some "A", none], [some "A", some "good"]] [] ⟨"Qf", "Qs", "Qcol"⟩
  have h2 := response_extraction_behavior netFixed jlFail ["Cohort", "Qcol"] "A"
    [[some "A", none], [some "A", some "good"]] [] ⟨"Qf", "Qs", "Absent"⟩
  exact ⟨h1.1, h2.2.1 (by decide)⟩

/-- Whether a response is an HTTP 400 client error. -/
def HttpResponse.isClient400 : HttpResponse → Bool
  | .clientError _ => true
  | _ => false

/-- C7 counterexample: a payload with headers and rows but no cohort column
is answered with HTTP 500 (the `KeyError('Cohort')` raised by `groupby`
reaches the handler's catch-all), not HTTP 400. -/
theorem missing_cohort_column_counterexample :
    (summarize netFixed jlFail
        (some ⟨some ["Name", "Q1"], some [[some "A", some "x"]]⟩)).1 =
      .serverError "\x27Cohort\x27" ∧
    ((summarize netFixed jlFail
        (some ⟨some ["Name", "Q1"], some [[some "A", some "x"]]⟩)).1).isClient400 = false :=
  ⟨rfl, rfl⟩

/-- C7 amended: for every payload containing headers and rows whose headers
lack the `"Cohort"` column, the endpoint answers HTTP 500 carrying the
`KeyError` text, with zero model calls; the code has no
`CohortColumnNotFoundError` and no 400 path for this case. -/
theorem missing_cohort_column_gives_500
    (net : String → String) (jl : String → Except String Json)
    (headers : List String) (rows : List Row) (h : "Cohort" ∉ headers) :
    summarize net jl (some ⟨some headers, some rows⟩) =
      (.serverError "\x27Cohort\x27", []) := by
  simp only [summarize, if_neg h]

/-- C7 witness: a concrete table with no cohort column. -/
theorem missing_cohort_column_gives_500_witness :
    summarize netFixed jlFail (some ⟨some ["Name"], some [[some "A"]]⟩) =
      (.serverError "\x27Cohort\x27", []) :=
  missing_cohort_column_gives_500 netFixed jlFail ["Name"] [[some "A"]] (by decide)

/-- C8: a request with a missing body, a missing rows key or a missing
headers key is answered HTTP 400 with the literal error
`"Invalid input data format"` (the code's variant of the claim's
"Invalid data format"), and the Model Invoker is called zero times — the
prompt log is empty. -/
theorem malformed_payload_400_no_calls
    (net : String → String) (jl : String → Except String Json) (d : Option Payload)
    (h : d = none ∨ (∃ hs, d = some ⟨hs, none⟩) ∨ (∃ rs, d = some ⟨none, rs⟩)) :
    summarize net jl d = (.clientError "Invalid input data format", []) := by
  rcases h with rfl | ⟨hs, rfl⟩ | ⟨rs, rfl⟩
  · rfl
  · cases hs <;> rfl
  · cases rs <;> rfl

/-- C8 witness: a payload with headers but no rows key. -/
theorem malformed_payload_400_no_calls_witness :
    summarize netFixed jlFail (some ⟨some ["Cohort"], none⟩) =
      (.clientError "Invalid input data format", []) :=
  malformed_payload_400_no_calls netFixed jlFail (some ⟨some ["Cohort"], none⟩)
    (Or.inr (Or.inl ⟨some ["Cohort"], rfl⟩))

/-- C9: cohort groups are traversed in ascending lexicographic key order
(pandas `groupby` sorts keys by default), and the summary and recommendation
outputs are the per-cohort results flattened in exactly that order. -/
theorem cohort_traversal_sorted
    (net : String → String) (jl : String → Except String Json)
    (headers : List String) (rows : List Row) (h : "Cohort" ∈ headers) :
    List.Sorted (· ≤ ·) (cohortKeys headers rows) ∧
    (summarize net jl (some ⟨some headers, some rows⟩)).1 =
      .ok (((cohortKeys headers rows).map
              (fun k => (processCohort net jl headers rows k).1)).flatten)
          (((cohortKeys headers rows).map
              (fun k => (processCohort net jl headers rows k).2.1)).flatten) := by
  constructor
  · exact (List.sorted_insertionSort strLeR _).imp (fun hab => strLeR_le _ _ hab)
  · simp only [summarize, if_pos h, List.map_map]
    rfl

/-- C9 witness: cohorts arriving as B then A are traversed as A then B. -/
theorem cohort_traversal_sorted_witness :
    List.Sorted (· ≤ ·) (cohortKeys ["Cohort"] [[some "B"], [some "A"]]) ∧
    cohortKeys ["Cohort"] [[some "B"], [some "A"]] = ["A", "B"] := by
  have h := cohort_traversal_sorted netFixed jlFail ["Cohort"] [[some "B"], [some "A"]]
    (by decide)
  exact ⟨h.1, rfl⟩

/-- C10: recommendation normalization checks only that the decoded reply is
a JSON list — each element of a decoded array becomes one [cohort, element]
record verbatim whatever its type; a reply decoding to a non-list, or
failing to decode, yields exactly one sentinel record; and the request still
answers 200 with every cohort's contribution in place. -/
theorem recommendations_list_validation
    (net : String → String) (jl : String → Except String Json)
    (cohort : String) (allText : List String)
    (hne : allText.isEmpty = false) :
    (∀ xs, jl (call_gemini_api net (generate_recommendations_prompt cohort allText)) =
          .ok (.arr xs) →
        (recsFor net jl cohort allText).1 = xs.map (fun x => (cohort, x))) ∧
    (∀ j, jl (call_gemini_api net (generate_recommendations_prompt cohort allText)) = .ok j →
        (∀ xs, j ≠ .arr xs) →
        (recsFor net jl cohort allText).1 =
          [(cohort,
            Json.str "Failed to parse recommendations: Recommendations response is not a list")]) ∧
    (∀ e, jl (call_gemini_api net (generate_recommendations_prompt cohort allText)) =
          .error e →
        (recsFor net jl cohort allText).1 =
          [(cohort, Json.str ("Failed to parse recommendations: " ++ e))]) ∧
    (∀ headers rows, "Cohort" ∈ headers →
        ∃ s recs, (summarize net jl (some ⟨some headers, some rows⟩)).1 = .ok s recs) := by
  refine ⟨?_, ?_, ?_, ?_⟩
  · intro xs hxs
    unfold recsFor
    rw [if_neg (by simp [hne])]
    simp only [hxs]
  · intro j hj hnotarr
    unfold recsFor
    rw [if_neg (by simp [hne])]
    cases j with
    | arr xs => exact absurd rfl (hnotarr xs)
    | str s => simp only [hj]
    | num n => simp only [hj]
    | bool b => simp only [hj]
    | null => simp only [hj]
    | obj fields => simp only [hj]
  · intro e he
    unfold recsFor
    rw [if_neg (by simp [hne])]
    simp only [he]
  · intro headers rows hmem
    simp only [summarize, if_pos hmem]
    exact ⟨_, _, rfl⟩

/-- Test decoder returning a JSON array with non-string elements. -/
def jlArr : String → Except String Json := fun _ =>
  .ok (Json.arr [Json.num 7, Json.null])

/-- C10 witness: non-string array elements are passed through verbatim. -/
theorem recommendations_list_validation_witness :
    (recsFor netFixed jlArr "A" ["feedback"]).1 = [("A", Json.num 7), ("A", Json.null)] := by
  have h := recommendations_list_validation netFixed jlArr "A" ["feedback"] rfl
  exact h.1 [Json.num 7, Json.null] rfl

/-- C4 witness: concrete run at `S = [1, 2, 3]`, `n = 2`. -/
theorem chunk_list_spec_witness :
    chunk_list [1, 2, 3] 2 = [[1, 2], [3]] ∧
    ((chunk_list [1, 2, 3] 2).flatten = [1, 2, 3] ∧
     (∀ c ∈ chunk_list [1, 2, 3] 2, c.length ≤ 2) ∧
     chunk_list ([] : List Nat) 2 = []) :=
  ⟨rfl, chunk_list_spec [1, 2, 3] 2 (by decide)⟩
